import Mathlib

/-!
Verification of the Microsoft Graph CLI scripts (auth / check-auth /
calendar / emails).  Shallow embedding: timestamps are milliseconds since
the epoch as `Int`; JavaScript `Date` calendar arithmetic is embedded as
explicit civil-field normalization; the msal identity provider and the
HTTP layer are environment parameters; the credential store is an
association list.
-/

/-- A stored credential record (`Credential` in `lib/types`), as serialized
in the credential store.  `expiresAt` is the parsed timestamp of the ISO
string (milliseconds since epoch). -/
structure Credential where
  accessToken : String
  refreshToken : Option String
  expiresAt : Int
  account : String
  scopes : List String
  clientId : Option String
  tenantId : Option String
  deriving Repr, DecidableEq

/-- Modelled from the spec: `isExpired(credential) -> boolean` from
`lib/credentials` (the module is absent from the sources; only its callers
are present).  Per the spec it is "true when current time ≥ stored expiry
minus no safety margin (exact boundary comparison)". -/
def isTokenExpired (now : Int) (c : Credential) : Bool :=
  decide (c.expiresAt ≤ now)

/-- The msal `AuthenticationResult` fields that check-auth.ts reads from
`acquireTokenByRefreshToken`'s result.  Fields the code accesses through
`?.`/`(result as any)` are `Option`s. -/
structure AuthenticationResult where
  accessToken : String
  refreshToken : Option String
  expiresOn : Option Int
  account : Option String
  scopes : Option (List String)
  deriving Repr, DecidableEq

/-- Outcome of the `pca.acquireTokenByRefreshToken` call in check-auth.ts:
it may throw, resolve to a null result, or resolve to a result. -/
inductive RefreshOutcome where
  | threw (msg : String)
  | nullResult
  | success (r : AuthenticationResult)
  deriving Repr, DecidableEq

/-- The `CheckResult` record printed by check-auth.ts. -/
structure CheckResult where
  status : String
  expiresIn : Option Int
  account : Option String
  error : Option String
  deriving Repr, DecidableEq

/-- `output()` in check-auth.ts ends with
`process.exit(result.status === "valid" ? 0 : 1)`. -/
def checkAuthExitCode (r : CheckResult) : Nat :=
  if r.status = "valid" then 0 else 1

/-- One complete run of check-auth.ts `main()`: the printed result, the
process exit code, and the `setCredential` call it performed (if any),
recorded as (service, profile, credential). -/
structure CheckAuthRun where
  result : CheckResult
  exitCode : Nat
  persisted : Option (String × String × Credential)
  deriving Repr, DecidableEq

/-- `Math.max(0, Math.floor((expiresAt - now) / 1000))` from
check-auth.ts (`Math.floor` on a real quotient is flooring division). -/
def expiresInSeconds (expiresAt now : Int) : Int :=
  max 0 (Int.fdiv (expiresAt - now) 1000)

/-- The new credential built in check-auth.ts lines 142-150 from the
refresh result, with fallbacks to the old credential. -/
def refreshedCredential (cred : Credential) (now : Int)
    (r : AuthenticationResult) : Credential :=
  { accessToken := r.accessToken
    refreshToken := match r.refreshToken with
      | some t => some t
      | none => cred.refreshToken
    expiresAt := r.expiresOn.getD (now + 3600000)
    account := r.account.getD cred.account
    scopes := match r.scopes with
      | some l => if l.length > 0 then l else cred.scopes
      | none => cred.scopes
    clientId := cred.clientId
    tenantId := cred.tenantId }

/-- `main()` of check-auth.ts.  `lookup` is the credential store read
(`getCredential`), `now` the clock, `refresh` the outcome of the msal
refresh-token call. -/
def checkAuthMain (profile : String)
    (lookup : String → String → Option Credential)
    (now : Int) (refresh : RefreshOutcome) : CheckAuthRun :=
  match lookup "microsoft-graph" profile with
  | none =>
    let res : CheckResult :=
      ⟨"needs-auth", none, none, some "No credentials found"⟩
    ⟨res, checkAuthExitCode res, none⟩
  | some credential =>
    if ¬ isTokenExpired now credential then
      let res : CheckResult :=
        ⟨"valid", some (expiresInSeconds credential.expiresAt now),
          some credential.account, none⟩
      ⟨res, checkAuthExitCode res, none⟩
    else
      match credential.refreshToken with
      | none =>
        let res : CheckResult :=
          ⟨"needs-auth", none, none, some "Token expired, no refresh token"⟩
        ⟨res, checkAuthExitCode res, none⟩
      | some _ =>
        match refresh with
        | .threw msg =>
          let res : CheckResult :=
            ⟨"needs-auth", none, none, some ("Refresh failed: " ++ msg)⟩
          ⟨res, checkAuthExitCode res, none⟩
        | .nullResult =>
          let res : CheckResult :=
            ⟨"needs-auth", none, none, some "Refresh returned no result"⟩
          ⟨res, checkAuthExitCode res, none⟩
        | .success r =>
          let newCredential := refreshedCredential credential now r
          let res : CheckResult :=
            ⟨"valid", some (expiresInSeconds newCredential.expiresAt now),
              some newCredential.account, none⟩
          ⟨res, checkAuthExitCode res,
            some ("microsoft-graph", profile, newCredential)⟩

/-! ### Credential store and the `auth.ts` delete / list commands -/

/-- Modelled from the spec: the credential store of `lib/credentials`
(absent from the sources) is "a mapping from service name to a mapping
from profile name to Credential"; profile names are unique per service.
Embedded as an association list keyed by (service, profile). -/
abbrev Store := List ((String × String) × Credential)

/-- Modelled from the spec: `get(service, profile) -> Credential | absent`. -/
def getCredential (store : Store) (service profile : String) :
    Option Credential :=
  (store.find? (fun e => e.1 = (service, profile))).map (·.2)

/-- Modelled from the spec: `delete(service, profile) -> boolean found`;
returns the updated store together with the `found` flag. -/
def deleteCredential (store : Store) (service profile : String) :
    Store × Bool :=
  (store.filter (fun e => ¬ e.1 = (service, profile)),
    store.any (fun e => e.1 = (service, profile)))

/-- Modelled from the spec: `listProfiles(service) -> ordered sequence of
profile names`. -/
def listProfiles (store : Store) (service : String) : List String :=
  store.filterMap (fun e => if e.1.1 = service then some e.1.2 else none)

/-- The `--delete` branch of `auth.ts` `main()` (lines 131-139): call
`deleteCredential("microsoft-graph", profile)` and print one message
depending on the returned flag; the branch returns normally (no throw,
exit 0).  Result: (message printed, store afterwards). -/
def authDeleteCmd (profile : String) (store : Store) : String × Store :=
  let r := deleteCredential store "microsoft-graph" profile
  if r.2 then
    ("Deleted credential profile: " ++ profile, r.1)
  else
    ("Profile not found: " ++ profile, r.1)

/-- The `--list` branch of `auth.ts` `main()` shows exactly the profiles
returned by `listProfiles("microsoft-graph")`. -/
def authListProfiles (store : Store) : List String :=
  listProfiles store "microsoft-graph"

/-! ### JavaScript `Date` model for calendar.ts

A `Date` is modelled by its civil fields (local time, no DST): 0-based
month and 1-based day as in JavaScript.  The field setters `setDate`,
`setMonth`, `setFullYear` go through ECMAScript `MakeDay`, which
normalizes out-of-range fields through the day count; the script only
ever moves dates forward, so normalization is embedded for day ≥ 1. -/

structure DateTime where
  year : Nat
  month : Nat
  day : Nat
  hour : Nat
  minute : Nat
  second : Nat
  ms : Nat
  deriving Repr, DecidableEq

def isLeapYear (y : Nat) : Bool :=
  (y % 4 == 0 && y % 100 != 0) || y % 400 == 0

def daysInMonth (y m : Nat) : Nat :=
  match m with
  | 0 => 31
  | 1 => if isLeapYear y then 29 else 28
  | 2 => 31
  | 3 => 30
  | 4 => 31
  | 5 => 30
  | 6 => 31
  | 7 => 31
  | 8 => 30
  | 9 => 31
  | 10 => 30
  | _ => 31

def daysInYear (y : Nat) : Nat :=
  if isLeapYear y then 366 else 365

/-- Days from year 0 up to the start of year `y` (a day count measuring
"calendar days elapsed"). -/
def daysSinceYear0 : Nat → Nat
  | 0 => 0
  | y + 1 => daysSinceYear0 y + daysInYear y

/-- Days from the start of year `y` up to the start of (0-based) month
`m`. -/
def daysBeforeMonth (y : Nat) : Nat → Nat
  | 0 => 0
  | m + 1 => daysBeforeMonth y m + daysInMonth y m

/-- Absolute day index of the civil date (y, m, d): two dates are exactly
`n` calendar days apart when their `dayNumber`s differ by `n`. -/
def dayNumber (y m d : Nat) : Nat :=
  daysSinceYear0 y + daysBeforeMonth y m + d

/-- `MakeDay` normalization of an overflowing day-of-month field: roll the
excess days into following months (and years).  Fuel-based recursion; each
step removes at least 28 days, so fuel = d always suffices. -/
def normalizeDateAux : Nat → Nat → Nat → Nat → Nat × Nat × Nat
  | 0, y, m, d => (y, m, d)
  | fuel + 1, y, m, d =>
    if d ≤ daysInMonth y m then (y, m, d)
    else if m < 11 then normalizeDateAux fuel y (m + 1) (d - daysInMonth y m)
    else normalizeDateAux fuel (y + 1) 0 (d - 31)

def normalizeDate (y m d : Nat) : Nat × Nat × Nat :=
  normalizeDateAux d y m d

/-- `d.setDate(n)` for `n ≥ 1`: set the day-of-month field to `n`, then
normalize; time-of-day fields untouched. -/
def setDateJS (b : DateTime) (n : Nat) : DateTime :=
  let r := normalizeDate b.year b.month n
  { b with year := r.1, month := r.2.1, day := r.2.2 }

/-- `d.setMonth(n)` for `n ≥ 0`: `MakeDay` folds the month field into the
year (`ym = y + ⌊n/12⌋`, `mn = n mod 12`), then the day field normalizes
against the new month. -/
def setMonthJS (b : DateTime) (n : Nat) : DateTime :=
  let r := normalizeDate (b.year + n / 12) (n % 12) b.day
  { b with year := r.1, month := r.2.1, day := r.2.2 }

/-- `d.setFullYear(n)`: replace the year; the day field normalizes against
the new year (Feb 29 in a non-leap year rolls to Mar 1). -/
def setFullYearJS (b : DateTime) (n : Nat) : DateTime :=
  let r := normalizeDate n b.month b.day
  { b with year := r.1, month := r.2.1, day := r.2.2 }

/-- `d.setHours(0, 0, 0, 0)`. -/
def zeroTime (b : DateTime) : DateTime :=
  { b with hour := 0, minute := 0, second := 0, ms := 0 }

/-- `d.setHours(23, 59, 59, 999)` (the `today` command's end date). -/
def endOfDay (b : DateTime) : DateTime :=
  { b with hour := 23, minute := 59, second := 59, ms := 999 }

/-- A well-formed civil date/time as JavaScript `Date` getters produce. -/
def WfDate (b : DateTime) : Prop :=
  b.month ≤ 11 ∧ 1 ≤ b.day ∧ b.day ≤ daysInMonth b.year b.month

instance (b : DateTime) : Decidable (WfDate b) := by
  unfold WfDate; infer_instance

/-! ### `parseDate` of calendar.ts -/

def digitsToNat (l : List Char) : Nat :=
  l.foldl (fun a c => a * 10 + (c.toNat - 48)) 0

/-- The regex match `lower.match(/^\+(\d+)([dmy])$/)`: a leading `+`, one
or more digits, then a single unit character `d`, `m` or `y`. -/
def matchRelative (s : String) : Option (Nat × Char) :=
  match s.toList with
  | '+' :: rest =>
    let ds := rest.takeWhile Char.isDigit
    let tl := rest.dropWhile Char.isDigit
    if ds = [] then none
    else
      match tl with
      | [u] =>
        if u = 'd' ∨ u = 'm' ∨ u = 'y' then some (digitsToNat ds, u) else none
      | _ => none
  | _ => none

/-- `input.toLowerCase()` (ASCII, which covers the recognized
vocabulary). -/
def asciiLower (s : String) : String :=
  String.mk (s.toList.map Char.toLower)

/-- `parseDate(input, baseDate)` of calendar.ts.  `parseISO` stands for
the JavaScript `new Date(string)` ISO parser applied to the original
(unlowered) input in the fallthrough branch. -/
def parseDate (parseISO : String → DateTime) (input : String)
    (base : DateTime) : DateTime :=
  let lower := asciiLower input
  if lower = "today" then zeroTime base
  else if lower = "tomorrow" then zeroTime (setDateJS base (base.day + 1))
  else
    match matchRelative lower with
    | some (n, u) =>
      if u = 'd' then setDateJS base (base.day + n)
      else if u = 'm' then setMonthJS base (base.month + n)
      else setFullYearJS base (base.year + n)
    | none => parseISO input

/-- The date-range resolution in calendar.ts `main()` (default branch):
`startDate = values.start ? parseDate(values.start) : now;`
`endDate = values.end ? parseDate(values.end, startDate)
                      : parseDate("+30d", startDate)`. -/
def resolveRange (parseISO : String → DateTime)
    (startArg endArg : Option String) (now : DateTime) :
    DateTime × DateTime :=
  let startDate := match startArg with
    | some s => parseDate parseISO s now
    | none => now
  let endDate := match endArg with
    | some e => parseDate parseISO e startDate
    | none => parseDate parseISO "+30d" startDate
  (startDate, endDate)

/-- The full date-range switch in calendar.ts `main()` (lines 199-217):
`today` and `week` are special-cased, everything else uses
`resolveRange`. -/
def commandRange (parseISO : String → DateTime) (cmd : String)
    (startArg endArg : Option String) (now : DateTime) :
    DateTime × DateTime :=
  if cmd = "today" then (zeroTime now, endOfDay now)
  else if cmd = "week" then (zeroTime now, setDateJS now (now.day + 7))
  else resolveRange parseISO startArg endArg now

/-! ### `graphRequest` of calendar.ts and error propagation -/

/-- An HTTP response as `fetch` presents it: `status`, the body text, and
the parsed JSON payload (kept opaque as `α`). -/
structure HttpResponse (α : Type) where
  status : Nat
  bodyText : String
  json : α

/-- `response.ok` per the fetch standard: status in the range 200-299. -/
def responseOk {α : Type} (r : HttpResponse α) : Bool :=
  decide (200 ≤ r.status ∧ r.status ≤ 299)

/-- `graphRequest(token, endpoint)` of calendar.ts (lines 101-117): on a
non-ok response it throws
`Graph API error: ${response.status} - ${body}`; otherwise it returns the
parsed JSON. -/
def graphRequest {α : Type} (resp : HttpResponse α) : Except String α :=
  if responseOk resp then .ok resp.json
  else .error ("Graph API error: " ++ toString resp.status ++ " - "
    ++ resp.bodyText)

/-- The single JSON document calendar.ts prints (`output()` prints one
response and immediately exits). -/
inductive ScriptResponse (α : Type) where
  | success (data : α)
  | errorOut (msg : String)
  deriving DecidableEq

/-- `output()` of calendar.ts exits with
`response.status === "success" ? 0 : 1`. -/
def scriptExitCode {α : Type} : ScriptResponse α → Nat
  | .success _ => 0
  | .errorOut _ => 1

/-- The calendar `list` command after authentication (calendar.ts lines
219-237 and the catch at 280-285): issue exactly one `graphRequest` — the
first response of the environment `env` — and either output the payload
as success or output the caught error message; one output, then exit.
The success-branch reshaping (`formatEventData`) is kept opaque in the
payload type `α`. -/
def runCalendarList {α : Type} (env : Nat → HttpResponse α) :
    ScriptResponse α × Nat :=
  let resp : ScriptResponse α :=
    match graphRequest (env 0) with
    | .ok payload => .success payload
    | .error e => .errorOut e
  (resp, scriptExitCode resp)

/-! ### Calendar arithmetic lemmas -/

lemma daysInMonth_ge (y m : Nat) : 28 ≤ daysInMonth y m := by
  rcases m with _ | _ | _ | _ | _ | _ | _ | _ | _ | _ | _ | m <;>
    simp only [daysInMonth] <;> first | omega | (split <;> omega)

lemma daysBeforeMonth_eleven (y : Nat) :
    daysBeforeMonth y 11 + 31 = daysInYear y := by
  show daysBeforeMonth y 10 + daysInMonth y 10 + 31 = daysInYear y
  simp only [daysBeforeMonth, daysInMonth, daysInYear]
  split <;> omega

/-- Each normalization step preserves the absolute day index. -/
lemma normalizeDateAux_dayNumber (fuel : Nat) : ∀ y m d, m ≤ 11 →
    dayNumber (normalizeDateAux fuel y m d).1
      (normalizeDateAux fuel y m d).2.1
      (normalizeDateAux fuel y m d).2.2 = dayNumber y m d := by
  induction fuel with
  | zero => intro y m d _; rfl
  | succ fuel ih =>
    intro y m d hm
    unfold normalizeDateAux
    by_cases h1 : d ≤ daysInMonth y m
    · simp [h1]
    · simp only [h1, if_false]
      by_cases h2 : m < 11
      · simp only [h2, if_true]
        rw [ih y (m + 1) (d - daysInMonth y m) (by omega)]
        show daysSinceYear0 y + daysBeforeMonth y (m + 1) + (d - daysInMonth y m)
          = daysSinceYear0 y + daysBeforeMonth y m + d
        have hstep : daysBeforeMonth y (m + 1)
            = daysBeforeMonth y m + daysInMonth y m := rfl
        omega
      · have hm11 : m = 11 := by omega
        subst hm11
        simp only [h2, if_false]
        rw [ih (y + 1) 0 (d - 31) (by omega)]
        show daysSinceYear0 (y + 1) + daysBeforeMonth (y + 1) 0 + (d - 31)
          = daysSinceYear0 y + daysBeforeMonth y 11 + d
        have hy : daysSinceYear0 (y + 1) = daysSinceYear0 y + daysInYear y := rfl
        have h11 := daysBeforeMonth_eleven y
        have h31 : daysInMonth y 11 = 31 := rfl
        rw [h31] at h1
        simp only [daysBeforeMonth] at *
        omega

/-- With enough fuel the normalized date is a well-formed civil date. -/
lemma normalizeDateAux_wf (fuel : Nat) : ∀ y m d, m ≤ 11 → 1 ≤ d →
    d ≤ 28 * fuel + 28 →
    (normalizeDateAux fuel y m d).2.1 ≤ 11
    ∧ 1 ≤ (normalizeDateAux fuel y m d).2.2
    ∧ (normalizeDateAux fuel y m d).2.2
        ≤ daysInMonth (normalizeDateAux fuel y m d).1
            (normalizeDateAux fuel y m d).2.1 := by
  induction fuel with
  | zero =>
    intro y m d hm hd1 hd2
    have := daysInMonth_ge y m
    simp only [normalizeDateAux]
    refine ⟨hm, hd1, ?_⟩
    omega
  | succ fuel ih =>
    intro y m d hm hd1 hd2
    unfold normalizeDateAux
    by_cases h1 : d ≤ daysInMonth y m
    · simp only [h1, if_true]
      exact ⟨hm, hd1, trivial⟩
    · simp only [h1, if_false]
      have hge := daysInMonth_ge y m
      by_cases h2 : m < 11
      · simp only [h2, if_true]
        exact ih y (m + 1) (d - daysInMonth y m) (by omega) (by omega) (by omega)
      · have h31 : daysInMonth y 11 = 31 := rfl
        have hm11 : m = 11 := by omega
        subst hm11
        simp only [h2, if_false]
        rw [h31] at h1
        exact ih (y + 1) 0 (d - 31) (by omega) (by omega) (by omega)

lemma normalizeDate_dayNumber (y m d : Nat) (hm : m ≤ 11) :
    dayNumber (normalizeDate y m d).1 (normalizeDate y m d).2.1
      (normalizeDate y m d).2.2 = dayNumber y m d :=
  normalizeDateAux_dayNumber d y m d hm

lemma normalizeDate_wf (y m d : Nat) (hm : m ≤ 11) (hd : 1 ≤ d) :
    (normalizeDate y m d).2.1 ≤ 11
    ∧ 1 ≤ (normalizeDate y m d).2.2
    ∧ (normalizeDate y m d).2.2
        ≤ daysInMonth (normalizeDate y m d).1 (normalizeDate y m d).2.1 :=
  normalizeDateAux_wf d y m d hm hd (by omega)

/-- A day-of-month already in range is left unchanged by normalization. -/
lemma normalizeDate_fixed (y m d : Nat) (hd1 : 1 ≤ d)
    (hd2 : d ≤ daysInMonth y m) : normalizeDate y m d = (y, m, d) := by
  rcases d with _ | d
  · omega
  · simp [normalizeDate, normalizeDateAux, hd2]

/-- The (0-based) absolute calendar-day index of a `DateTime`'s date. -/
def dateNum (b : DateTime) : Nat :=
  dayNumber b.year b.month b.day

/-- The time-of-day fields of a `DateTime`. -/
def timeOfDay (b : DateTime) : Nat × Nat × Nat × Nat :=
  (b.hour, b.minute, b.second, b.ms)

/-! ### check-auth.ts theorems -/

/-- Evaluation of the silent-refresh success path of check-auth.ts. -/
lemma checkAuthMain_refresh_success (profile : String)
    (lookup : String → String → Option Credential) (now : Int)
    (cred : Credential) (r : AuthenticationResult) (rt : String)
    (hc : lookup "microsoft-graph" profile = some cred)
    (hexp : isTokenExpired now cred = true)
    (hrt : cred.refreshToken = some rt) :
    checkAuthMain profile lookup now (.success r)
      = ⟨⟨"valid",
          some (expiresInSeconds (refreshedCredential cred now r).expiresAt now),
          some (refreshedCredential cred now r).account, none⟩, 0,
          some ("microsoft-graph", profile, refreshedCredential cred now r)⟩ := by
  unfold checkAuthMain
  rw [hc]
  simp [hexp, hrt, checkAuthExitCode]

/-- Claim C1: for every stored credential whose access token is expired and
whose refresh token is present, a successful silent refresh in check-auth
replaces the access token and (when the provider result carries one) the
expiry with the provider's values, preserves the old refresh token when
the provider's result carries no new one, persists the new credential
under the same service ("microsoft-graph") and profile, reports status
"valid", and exits 0. -/
theorem checkAuth_silent_refresh_success (profile : String)
    (lookup : String → String → Option Credential) (now : Int)
    (cred : Credential) (r : AuthenticationResult) (rt : String)
    (hc : lookup "microsoft-graph" profile = some cred)
    (hexp : isTokenExpired now cred = true)
    (hrt : cred.refreshToken = some rt) :
    (checkAuthMain profile lookup now (.success r)).result.status = "valid"
    ∧ (checkAuthMain profile lookup now (.success r)).exitCode = 0
    ∧ ∃ nc, (checkAuthMain profile lookup now (.success r)).persisted
          = some ("microsoft-graph", profile, nc)
        ∧ nc.accessToken = r.accessToken
        ∧ (∀ e, r.expiresOn = some e → nc.expiresAt = e)
        ∧ (r.refreshToken = none → nc.refreshToken = some rt) := by
  rw [checkAuthMain_refresh_success profile lookup now cred r rt hc hexp hrt]
  refine ⟨rfl, rfl, refreshedCredential cred now r, rfl, rfl, ?_, ?_⟩
  · intro e he
    simp [refreshedCredential, he]
  · intro h0
    simp [refreshedCredential, h0, hrt]

theorem checkAuth_silent_refresh_success_witness :
    (checkAuthMain "default"
        (fun _ _ => some ⟨"old", some "rt0", 1000, "acc", ["s"], none, none⟩)
        5000
        (.success ⟨"new", none, some 99000, some "acc2", some ["s2"]⟩)
      ).result.status = "valid"
    ∧ (checkAuthMain "default"
        (fun _ _ => some ⟨"old", some "rt0", 1000, "acc", ["s"], none, none⟩)
        5000
        (.success ⟨"new", none, some 99000, some "acc2", some ["s2"]⟩)
      ).exitCode = 0
    ∧ ∃ nc, (checkAuthMain "default"
        (fun _ _ => some ⟨"old", some "rt0", 1000, "acc", ["s"], none, none⟩)
        5000
        (.success ⟨"new", none, some 99000, some "acc2", some ["s2"]⟩)
      ).persisted = some ("microsoft-graph", "default", nc)
        ∧ nc.accessToken = "new"
        ∧ (∀ e, (some 99000 : Option Int) = some e → nc.expiresAt = e)
        ∧ ((none : Option String) = none → nc.refreshToken = some "rt0") :=
  checkAuth_silent_refresh_success "default"
    (fun _ _ => some ⟨"old", some "rt0", 1000, "acc", ["s"], none, none⟩)
    5000 ⟨"old", some "rt0", 1000, "acc", ["s"], none, none⟩
    ⟨"new", none, some 99000, some "acc2", some ["s2"]⟩ "rt0"
    rfl (by decide) rfl

/-- Claim C2: check-auth reports "needs-auth" with exit code 1 exactly when no
credential is stored, or the stored credential is expired with no refresh
token, or the silent refresh attempt fails (throws or yields a null
result); and every "needs-auth" output carries a reason string in its
`error` field. -/
theorem checkAuth_needs_auth_iff (profile : String)
    (lookup : String → String → Option Credential) (now : Int)
    (refresh : RefreshOutcome) :
    ((checkAuthMain profile lookup now refresh).result.status = "needs-auth"
        ∧ (checkAuthMain profile lookup now refresh).exitCode = 1
      ↔ lookup "microsoft-graph" profile = none
        ∨ (∃ cred, lookup "microsoft-graph" profile = some cred
            ∧ isTokenExpired now cred = true ∧ cred.refreshToken = none)
        ∨ (∃ cred, lookup "microsoft-graph" profile = some cred
            ∧ isTokenExpired now cred = true ∧ cred.refreshToken ≠ none
            ∧ ∀ r, refresh ≠ RefreshOutcome.success r))
    ∧ ((checkAuthMain profile lookup now refresh).result.status = "needs-auth"
        → ∃ msg,
          (checkAuthMain profile lookup now refresh).result.error = some msg)
    := by
  unfold checkAuthMain
  rcases hl : lookup "microsoft-graph" profile with _ | cred
  · simp [checkAuthExitCode]
  · rcases hexp : isTokenExpired now cred with _ | _
    · simp [hexp, checkAuthExitCode]
    · rcases hrt : cred.refreshToken with _ | rt
      · simp [hexp, hrt, checkAuthExitCode]
      · rcases refresh with msg | _ | r <;>
          simp [hexp, hrt, checkAuthExitCode]

theorem checkAuth_needs_auth_iff_witness :
    (checkAuthMain "default" (fun _ _ => none) 0 .nullResult
      ).result.status = "needs-auth"
    ∧ (checkAuthMain "default" (fun _ _ => none) 0 .nullResult).exitCode = 1 :=
  (checkAuth_needs_auth_iff "default" (fun _ _ => none) 0 .nullResult).1.mpr
    (Or.inl rfl)

/-- Claim C3: for every stored credential that is not expired, check-auth
reports status "valid" with `expiresIn = max 0 ⌊(expiresAt - now)/1000⌋`,
together with the stored account, and exits 0. -/
theorem checkAuth_valid_unexpired (profile : String)
    (lookup : String → String → Option Credential) (now : Int)
    (refresh : RefreshOutcome) (cred : Credential)
    (hc : lookup "microsoft-graph" profile = some cred)
    (hexp : isTokenExpired now cred = false) :
    (checkAuthMain profile lookup now refresh).result.status = "valid"
    ∧ (checkAuthMain profile lookup now refresh).result.expiresIn
        = some (max 0 (Int.fdiv (cred.expiresAt - now) 1000))
    ∧ (checkAuthMain profile lookup now refresh).result.account
        = some cred.account
    ∧ (checkAuthMain profile lookup now refresh).exitCode = 0 := by
  unfold checkAuthMain
  rw [hc]
  simp [hexp, checkAuthExitCode, expiresInSeconds]

theorem checkAuth_valid_unexpired_witness :
    (checkAuthMain "default"
        (fun _ _ => some ⟨"tok", none, 10500, "acc", [], none, none⟩)
        5000 .nullResult).result.status = "valid"
    ∧ (checkAuthMain "default"
        (fun _ _ => some ⟨"tok", none, 10500, "acc", [], none, none⟩)
        5000 .nullResult).result.expiresIn
        = some (max 0 (Int.fdiv ((10500 : Int) - 5000) 1000))
    ∧ (checkAuthMain "default"
        (fun _ _ => some ⟨"tok", none, 10500, "acc", [], none, none⟩)
        5000 .nullResult).result.account = some "acc"
    ∧ (checkAuthMain "default"
        (fun _ _ => some ⟨"tok", none, 10500, "acc", [], none, none⟩)
        5000 .nullResult).exitCode = 0 :=
  checkAuth_valid_unexpired "default"
    (fun _ _ => some ⟨"tok", none, 10500, "acc", [], none, none⟩)
    5000 .nullResult ⟨"tok", none, 10500, "acc", [], none, none⟩ rfl (by decide)

/-- Claim C4: the expiry check classifies a credential as expired exactly when
current time ≥ stored expiry: expiry in the past or exactly equal to now
yields true, expiry strictly in the future yields false (no safety
margin). -/
theorem isTokenExpired_boundary (now : Int) (c : Credential) :
    (c.expiresAt ≤ now → isTokenExpired now c = true)
    ∧ (now < c.expiresAt → isTokenExpired now c = false) := by
  unfold isTokenExpired
  constructor <;> intro h <;> simp [h]

theorem isTokenExpired_boundary_witness :
    isTokenExpired 5 ⟨"a", none, 5, "acc", [], none, none⟩ = true
    ∧ isTokenExpired 4 ⟨"a", none, 5, "acc", [], none, none⟩ = false :=
  ⟨(isTokenExpired_boundary 5 ⟨"a", none, 5, "acc", [], none, none⟩).1
      (by decide),
    (isTokenExpired_boundary 4 ⟨"a", none, 5, "acc", [], none, none⟩).2
      (by decide)⟩

/-- Claim C9: a successful silent refresh leaves `clientId` and `tenantId`
unchanged: the persisted credential carries exactly the old credential's
values for both fields. -/
theorem checkAuth_refresh_frame_client_tenant (profile : String)
    (lookup : String → String → Option Credential) (now : Int)
    (cred : Credential) (r : AuthenticationResult) (rt : String)
    (hc : lookup "microsoft-graph" profile = some cred)
    (hexp : isTokenExpired now cred = true)
    (hrt : cred.refreshToken = some rt) :
    ∃ nc, (checkAuthMain profile lookup now (.success r)).persisted
        = some ("microsoft-graph", profile, nc)
      ∧ nc.clientId = cred.clientId ∧ nc.tenantId = cred.tenantId := by
  rw [checkAuthMain_refresh_success profile lookup now cred r rt hc hexp hrt]
  exact ⟨refreshedCredential cred now r, rfl, rfl, rfl⟩

theorem checkAuth_refresh_frame_client_tenant_witness :
    ∃ nc, (checkAuthMain "p"
        (fun _ _ => some ⟨"old", some "rt0", 0, "acc", [], some "cid", none⟩)
        7 (.success ⟨"new", some "rt1", none, none, none⟩)).persisted
        = some ("microsoft-graph", "p", nc)
      ∧ nc.clientId = some "cid" ∧ nc.tenantId = none :=
  checkAuth_refresh_frame_client_tenant "p"
    (fun _ _ => some ⟨"old", some "rt0", 0, "acc", [], some "cid", none⟩)
    7 ⟨"old", some "rt0", 0, "acc", [], some "cid", none⟩
    ⟨"new", some "rt1", none, none, none⟩ "rt0" rfl (by decide) rfl

/-- Claim C10: on a successful silent refresh, missing provider-result fields
default from fallbacks: no expiry → `expiresAt = now + 3600000` (one
hour); empty scope list → old scopes kept; no account → old account
kept. -/
theorem checkAuth_refresh_defaults (profile : String)
    (lookup : String → String → Option Credential) (now : Int)
    (cred : Credential) (r : AuthenticationResult) (rt : String)
    (hc : lookup "microsoft-graph" profile = some cred)
    (hexp : isTokenExpired now cred = true)
    (hrt : cred.refreshToken = some rt) :
    ∃ nc, (checkAuthMain profile lookup now (.success r)).persisted
        = some ("microsoft-graph", profile, nc)
      ∧ (r.expiresOn = none → nc.expiresAt = now + 3600000)
      ∧ (r.scopes = some [] → nc.scopes = cred.scopes)
      ∧ (r.account = none → nc.account = cred.account) := by
  rw [checkAuthMain_refresh_success profile lookup now cred r rt hc hexp hrt]
  refine ⟨refreshedCredential cred now r, rfl, ?_, ?_, ?_⟩
  · intro he
    simp [refreshedCredential, he]
  · intro hs
    simp [refreshedCredential, hs]
  · intro ha
    simp [refreshedCredential, ha]

theorem checkAuth_refresh_defaults_witness :
    ∃ nc, (checkAuthMain "p"
        (fun _ _ => some ⟨"old", some "rt0", 0, "acc", ["s0"], none, none⟩)
        7 (.success ⟨"new", none, none, none, some []⟩)).persisted
        = some ("microsoft-graph", "p", nc)
      ∧ ((none : Option Int) = none → nc.expiresAt = 7 + 3600000)
      ∧ ((some [] : Option (List String)) = some [] → nc.scopes = ["s0"])
      ∧ ((none : Option String) = none → nc.account = "acc") :=
  checkAuth_refresh_defaults "p"
    (fun _ _ => some ⟨"old", some "rt0", 0, "acc", ["s0"], none, none⟩)
    7 ⟨"old", some "rt0", 0, "acc", ["s0"], none, none⟩
    ⟨"new", none, none, none, some []⟩ "rt0" rfl (by decide) rfl

/-! ### parseDate dispatch and calendar-range theorems -/

lemma parseDate_today_eq (parseISO : String → DateTime) (b : DateTime) :
    parseDate parseISO "today" b = zeroTime b := by
  unfold parseDate
  simp [show asciiLower "today" = "today" from by decide]

lemma parseDate_tomorrow_eq (parseISO : String → DateTime) (b : DateTime) :
    parseDate parseISO "tomorrow" b = zeroTime (setDateJS b (b.day + 1)) := by
  unfold parseDate
  simp [show asciiLower "tomorrow" = "tomorrow" from by decide]

lemma parseDate_of_match (parseISO : String → DateTime) (s : String)
    (b : DateTime) (n : Nat) (u : Char)
    (h : matchRelative (asciiLower s) = some (n, u)) :
    parseDate parseISO s b =
      if u = 'd' then setDateJS b (b.day + n)
      else if u = 'm' then setMonthJS b (b.month + n)
      else setFullYearJS b (b.year + n) := by
  have h1 : asciiLower s ≠ "today" := by
    intro he
    rw [he, show matchRelative "today" = none from by decide] at h
    exact Option.noConfusion h
  have h2 : asciiLower s ≠ "tomorrow" := by
    intro he
    rw [he, show matchRelative "tomorrow" = none from by decide] at h
    exact Option.noConfusion h
  unfold parseDate
  simp [h1, h2, h]

lemma parseDate_iso_fallthrough (parseISO : String → DateTime) (s : String)
    (b : DateTime) (h1 : asciiLower s ≠ "today")
    (h2 : asciiLower s ≠ "tomorrow")
    (h3 : matchRelative (asciiLower s) = none) :
    parseDate parseISO s b = parseISO s := by
  unfold parseDate
  simp [h1, h2, h3]

lemma setDateJS_dateNum (b : DateTime) (n : Nat) (hm : b.month ≤ 11) :
    dateNum (setDateJS b n) = dayNumber b.year b.month n := by
  unfold setDateJS dateNum
  exact normalizeDate_dayNumber b.year b.month n hm

lemma setDateJS_timeOfDay (b : DateTime) (n : Nat) :
    timeOfDay (setDateJS b n) = timeOfDay b := rfl

lemma setDateJS_wf (b : DateTime) (n : Nat) (hm : b.month ≤ 11)
    (hn : 1 ≤ n) : WfDate (setDateJS b n) := by
  unfold setDateJS WfDate
  exact normalizeDate_wf b.year b.month n hm hn

/-- Claim C5: calendar relative-date resolution.  `today` keeps the base date
and zeroes time-of-day; `tomorrow` advances exactly one calendar day and
zeroes time-of-day; `+Nd` advances exactly N calendar days preserving
time-of-day; `+Nm` advances the combined month index by N with standard
rollover into the year; `+Ny` advances the year field by N; any other
input goes to the literal ISO parser; and a given `--end` is resolved
against the previously resolved start date. -/
theorem parseDate_relative_resolution (parseISO : String → DateTime)
    (b : DateTime) (hwf : WfDate b) :
    parseDate parseISO "today" b = ⟨b.year, b.month, b.day, 0, 0, 0, 0⟩
    ∧ (dateNum (parseDate parseISO "tomorrow" b) = dateNum b + 1
      ∧ timeOfDay (parseDate parseISO "tomorrow" b) = (0, 0, 0, 0)
      ∧ WfDate (parseDate parseISO "tomorrow" b))
    ∧ (∀ s n, matchRelative (asciiLower s) = some (n, 'd') →
        dateNum (parseDate parseISO s b) = dateNum b + n
        ∧ timeOfDay (parseDate parseISO s b) = timeOfDay b
        ∧ WfDate (parseDate parseISO s b))
    ∧ (∀ s n y' m', matchRelative (asciiLower s) = some (n, 'm') →
        12 * y' + m' = 12 * b.year + b.month + n → m' ≤ 11 →
        b.day ≤ daysInMonth y' m' →
        parseDate parseISO s b
          = ⟨y', m', b.day, b.hour, b.minute, b.second, b.ms⟩)
    ∧ (∀ s n, matchRelative (asciiLower s) = some (n, 'y') →
        b.day ≤ daysInMonth (b.year + n) b.month →
        parseDate parseISO s b
          = ⟨b.year + n, b.month, b.day, b.hour, b.minute, b.second, b.ms⟩)
    ∧ (∀ s, asciiLower s ≠ "today" → asciiLower s ≠ "tomorrow" →
        matchRelative (asciiLower s) = none →
        parseDate parseISO s b = parseISO s)
    ∧ (∀ startArg e now, (resolveRange parseISO startArg (some e) now).2
        = parseDate parseISO e (resolveRange parseISO startArg (some e) now).1)
    := by
  obtain ⟨hm, hd1, hd2⟩ := hwf
  refine ⟨?_, ⟨?_, ?_, ?_⟩, ?_, ?_, ?_, ?_, ?_⟩
  · exact parseDate_today_eq parseISO b
  · rw [parseDate_tomorrow_eq]
    show dateNum (setDateJS b (b.day + 1)) = dateNum b + 1
    rw [setDateJS_dateNum b (b.day + 1) hm]
    unfold dayNumber dateNum dayNumber
    omega
  · rw [parseDate_tomorrow_eq]; rfl
  · rw [parseDate_tomorrow_eq]
    show WfDate (zeroTime (setDateJS b (b.day + 1)))
    have := setDateJS_wf b (b.day + 1) hm (by omega)
    unfold WfDate zeroTime at *
    exact this
  · intro s n hmatch
    rw [parseDate_of_match parseISO s b n 'd' hmatch, if_pos rfl]
    refine ⟨?_, rfl, setDateJS_wf b (b.day + n) hm (by omega)⟩
    rw [setDateJS_dateNum b (b.day + n) hm]
    unfold dayNumber dateNum dayNumber
    omega
  · intro s n y' m' hmatch hidx hm' hfit
    rw [parseDate_of_match parseISO s b n 'm' hmatch,
      if_neg (by decide), if_pos rfl]
    have hy : y' = b.year + (b.month + n) / 12 := by omega
    have hmm : m' = (b.month + n) % 12 := by omega
    unfold setMonthJS
    rw [← hy, ← hmm, normalizeDate_fixed y' m' b.day hd1 hfit]
  · intro s n hmatch hfit
    rw [parseDate_of_match parseISO s b n 'y' hmatch,
      if_neg (by decide), if_neg (by decide)]
    unfold setFullYearJS
    rw [normalizeDate_fixed (b.year + n) b.month b.day hd1 hfit]
  · intro s h1 h2 h3
    exact parseDate_iso_fallthrough parseISO s b h1 h2 h3
  · intro startArg e now
    rfl

theorem parseDate_relative_resolution_witness :
    parseDate (fun _ => ⟨1970, 0, 1, 0, 0, 0, 0⟩) "today"
        ⟨2024, 0, 15, 12, 30, 0, 5⟩ = ⟨2024, 0, 15, 0, 0, 0, 0⟩
    ∧ (dateNum (parseDate (fun _ => ⟨1970, 0, 1, 0, 0, 0, 0⟩) "+7d"
          ⟨2024, 0, 15, 12, 30, 0, 5⟩)
        = dateNum ⟨2024, 0, 15, 12, 30, 0, 5⟩ + 7
      ∧ timeOfDay (parseDate (fun _ => ⟨1970, 0, 1, 0, 0, 0, 0⟩) "+7d"
          ⟨2024, 0, 15, 12, 30, 0, 5⟩)
        = timeOfDay ⟨2024, 0, 15, 12, 30, 0, 5⟩)
    ∧ parseDate (fun _ => ⟨1970, 0, 1, 0, 0, 0, 0⟩) "+1m"
        ⟨2024, 0, 15, 12, 30, 0, 5⟩ = ⟨2024, 1, 15, 12, 30, 0, 5⟩
    ∧ parseDate (fun _ => ⟨1970, 0, 1, 0, 0, 0, 0⟩) "+1y"
        ⟨2024, 0, 15, 12, 30, 0, 5⟩ = ⟨2025, 0, 15, 12, 30, 0, 5⟩
    ∧ parseDate (fun _ => ⟨1970, 0, 1, 0, 0, 0, 0⟩) "2024-01-01"
        ⟨2024, 0, 15, 12, 30, 0, 5⟩ = ⟨1970, 0, 1, 0, 0, 0, 0⟩ := by
  have h := parseDate_relative_resolution (fun _ => ⟨1970, 0, 1, 0, 0, 0, 0⟩)
    ⟨2024, 0, 15, 12, 30, 0, 5⟩ (by decide)
  refine ⟨h.1, ?_, ?_, ?_, ?_⟩
  · have hd := h.2.2.1 "+7d" 7 (by decide)
    exact ⟨hd.1, hd.2.1⟩
  · exact h.2.2.2.1 "+1m" 1 2024 1 (by decide) (by decide) (by decide) (by decide)
  · exact h.2.2.2.2.1 "+1y" 1 (by decide) (by decide)
  · exact h.2.2.2.2.2.1 "2024-01-01" (by decide) (by decide) (by decide)

/-- Claim C8 as written claims the `week` range ends at midnight; the code never
zeroes the end date's time-of-day, so at 12:30 the week range ends at
12:30 seven days later, not at midnight. -/
theorem commandRange_week_end_not_midnight :
    (commandRange (fun _ => ⟨1970, 0, 1, 0, 0, 0, 0⟩) "week" none none
        ⟨2024, 0, 15, 12, 30, 0, 0⟩).2 = ⟨2024, 0, 22, 12, 30, 0, 0⟩
    ∧ (commandRange (fun _ => ⟨1970, 0, 1, 0, 0, 0, 0⟩) "week" none none
        ⟨2024, 0, 15, 12, 30, 0, 0⟩).2 ≠ ⟨2024, 0, 22, 0, 0, 0, 0⟩ := by
  decide

/-- Claim C8 (amended): `list` with neither `--start` nor `--end` resolves the
range from the current instant to exactly 30 calendar days later
preserving time-of-day; `week` resolves from today at midnight to seven
calendar days after the current instant, preserving the current
time-of-day. -/
theorem commandRange_defaults (parseISO : String → DateTime)
    (now : DateTime) (hwf : WfDate now) :
    ((commandRange parseISO "list" none none now).1 = now
      ∧ dateNum (commandRange parseISO "list" none none now).2
          = dateNum now + 30
      ∧ timeOfDay (commandRange parseISO "list" none none now).2
          = timeOfDay now)
    ∧ ((commandRange parseISO "week" none none now).1
        = ⟨now.year, now.month, now.day, 0, 0, 0, 0⟩
      ∧ dateNum (commandRange parseISO "week" none none now).2
          = dateNum now + 7
      ∧ timeOfDay (commandRange parseISO "week" none none now).2
          = timeOfDay now) := by
  obtain ⟨hm, hd1, hd2⟩ := hwf
  have hlist : commandRange parseISO "list" none none now
      = (now, parseDate parseISO "+30d" now) := by
    unfold commandRange
    rw [if_neg (by decide), if_neg (by decide)]
    rfl
  have hweek : commandRange parseISO "week" none none now
      = (zeroTime now, setDateJS now (now.day + 7)) := by
    unfold commandRange
    rw [if_neg (by decide), if_pos rfl]
  have h30 : parseDate parseISO "+30d" now = setDateJS now (now.day + 30) := by
    rw [parseDate_of_match parseISO "+30d" now 30 'd' (by decide), if_pos rfl]
  refine ⟨⟨?_, ?_, ?_⟩, ⟨?_, ?_, ?_⟩⟩
  · rw [hlist]
  · rw [hlist]
    show dateNum (parseDate parseISO "+30d" now) = dateNum now + 30
    rw [h30, setDateJS_dateNum now (now.day + 30) hm]
    unfold dateNum dayNumber
    omega
  · rw [hlist]
    show timeOfDay (parseDate parseISO "+30d" now) = timeOfDay now
    rw [h30]
    rfl
  · rw [hweek]
    rfl
  · rw [hweek]
    show dateNum (setDateJS now (now.day + 7)) = dateNum now + 7
    rw [setDateJS_dateNum now (now.day + 7) hm]
    unfold dateNum dayNumber
    omega
  · rw [hweek]
    rfl

theorem commandRange_defaults_witness :
    ((commandRange (fun _ => ⟨1970, 0, 1, 0, 0, 0, 0⟩) "list" none none
        ⟨2024, 0, 15, 12, 30, 0, 0⟩).1 = ⟨2024, 0, 15, 12, 30, 0, 0⟩
      ∧ dateNum (commandRange (fun _ => ⟨1970, 0, 1, 0, 0, 0, 0⟩) "list"
          none none ⟨2024, 0, 15, 12, 30, 0, 0⟩).2
        = dateNum ⟨2024, 0, 15, 12, 30, 0, 0⟩ + 30)
    ∧ ((commandRange (fun _ => ⟨1970, 0, 1, 0, 0, 0, 0⟩) "week" none none
        ⟨2024, 0, 15, 12, 30, 0, 0⟩).1 = ⟨2024, 0, 15, 0, 0, 0, 0⟩
      ∧ timeOfDay (commandRange (fun _ => ⟨1970, 0, 1, 0, 0, 0, 0⟩) "week"
          none none ⟨2024, 0, 15, 12, 30, 0, 0⟩).2
        = timeOfDay ⟨2024, 0, 15, 12, 30, 0, 0⟩) := by
  have h := commandRange_defaults (fun _ => ⟨1970, 0, 1, 0, 0, 0, 0⟩)
    ⟨2024, 0, 15, 12, 30, 0, 0⟩ (by decide)
  exact ⟨⟨h.1.1, h.1.2.1⟩, ⟨h.2.1, h.2.2.2⟩⟩

/-! ### Graph API error propagation (calendar.ts) -/

/-- Claim C6: a non-2xx response makes `graphRequest` throw an error embedding
the HTTP status code and the response body text; the calendar command
catches it, prints a single error output, exits 1, and never looks at any
further response (no retry). -/
theorem calendarList_graph_error (α : Type) (env : Nat → HttpResponse α)
    (h : ¬ (200 ≤ (env 0).status ∧ (env 0).status ≤ 299)) :
    runCalendarList env
      = (.errorOut ("Graph API error: " ++ toString (env 0).status ++ " - "
          ++ (env 0).bodyText), 1)
    ∧ (∃ pre post, "Graph API error: " ++ toString (env 0).status ++ " - "
          ++ (env 0).bodyText = pre ++ toString (env 0).status ++ post)
    ∧ (∃ pre, "Graph API error: " ++ toString (env 0).status ++ " - "
          ++ (env 0).bodyText = pre ++ (env 0).bodyText)
    ∧ ∀ env' : Nat → HttpResponse α, env' 0 = env 0 →
        runCalendarList env' = runCalendarList env := by
  have hok : responseOk (env 0) = false := by
    simp [responseOk]
    omega
  refine ⟨?_, ?_, ?_, ?_⟩
  · unfold runCalendarList graphRequest
    rw [hok]
    rfl
  · exact ⟨"Graph API error: ", " - " ++ (env 0).bodyText,
      by rw [String.append_assoc]⟩
  · exact ⟨"Graph API error: " ++ toString (env 0).status ++ " - ", rfl⟩
  · intro env' he
    unfold runCalendarList graphRequest responseOk
    rw [he]

theorem calendarList_graph_error_witness :
    runCalendarList (fun _ =>
        ({ status := 404, bodyText := "Not Found", json := 0 } :
          HttpResponse Nat))
      = (.errorOut ("Graph API error: " ++ toString (404 : Nat) ++ " - "
          ++ "Not Found"), 1) :=
  (calendarList_graph_error Nat
    (fun _ => { status := 404, bodyText := "Not Found", json := 0 })
    (by decide)).1

/-! ### `auth --delete` (C7) -/

lemma mem_listProfiles (store : Store) (s p : String) :
    p ∈ listProfiles store s ↔ ∃ e ∈ store, e.1 = (s, p) := by
  unfold listProfiles
  rw [List.mem_filterMap]
  constructor
  · rintro ⟨e, he, hif⟩
    by_cases h : e.1.1 = s
    · rw [if_pos h] at hif
      refine ⟨e, he, ?_⟩
      rw [Prod.ext_iff]
      exact ⟨h, Option.some_inj.mp hif⟩
    · rw [if_neg h] at hif
      exact absurd hif (by simp)
  · rintro ⟨e, he, hke⟩
    refine ⟨e, he, ?_⟩
    rw [hke]
    simp

lemma authDeleteCmd_store (profile : String) (store : Store) :
    (authDeleteCmd profile store).2
      = store.filter (fun e => ¬ e.1 = ("microsoft-graph", profile)) := by
  unfold authDeleteCmd deleteCredential
  dsimp only
  split <;> rfl

/-- Claim C7: `auth --delete --profile X` on a profile absent from the store
reports "Profile not found: X" and leaves the store unchanged (the branch
returns normally — the total embedding throws nothing); on any store the
resulting store no longer lists X, so a subsequent `--list` does not show
it. -/
theorem authDelete_reports_and_removes (profile : String) (store : Store) :
    (profile ∉ authListProfiles store →
      (authDeleteCmd profile store).1 = "Profile not found: " ++ profile
      ∧ (authDeleteCmd profile store).2 = store)
    ∧ profile ∉ authListProfiles (authDeleteCmd profile store).2 := by
  constructor
  · intro hnot
    rw [authListProfiles, mem_listProfiles] at hnot
    push_neg at hnot
    have hany : store.any (fun e => e.1 = ("microsoft-graph", profile))
        = false := by
      rw [List.any_eq_false]
      intro e he
      simpa using hnot e he
    constructor
    · unfold authDeleteCmd deleteCredential
      rw [hany]
      rfl
    · rw [authDeleteCmd_store, List.filter_eq_self]
      intro e he
      simpa using hnot e he
  · rw [authDeleteCmd_store, authListProfiles, mem_listProfiles]
    rintro ⟨e, he, hke⟩
    rw [List.mem_filter] at he
    have := he.2
    simp at this
    exact this hke

theorem authDelete_reports_and_removes_witness :
    ((authDeleteCmd "absent"
        [(("microsoft-graph", "work"),
          ⟨"tok", none, 0, "acc", [], none, none⟩)]).1
      = "Profile not found: " ++ "absent"
      ∧ (authDeleteCmd "absent"
        [(("microsoft-graph", "work"),
          ⟨"tok", none, 0, "acc", [], none, none⟩)]).2
      = [(("microsoft-graph", "work"),
          ⟨"tok", none, 0, "acc", [], none, none⟩)])
    ∧ "work" ∉ authListProfiles (authDeleteCmd "work"
        [(("microsoft-graph", "work"),
          ⟨"tok", none, 0, "acc", [], none, none⟩)]).2 :=
  ⟨(authDelete_reports_and_removes "absent"
      [(("microsoft-graph", "work"),
        ⟨"tok", none, 0, "acc", [], none, none⟩)]).1
    (by decide),
   (authDelete_reports_and_removes "work"
      [(("microsoft-graph", "work"),
        ⟨"tok", none, 0, "acc", [], none, none⟩)]).2⟩
